import Mathlib

/-!
# Verification of the web3storage client (`src/src/web3Storage.ts`, `src/unnamed/part_000`)

Shallow embedding of the `Web3Storage` class and its `utils` helpers.  Network
and file-system effects are modelled as explicit outcome arguments ("oracles"):
each method takes the outcome of the HTTP call / file read it performs and
computes the value the TypeScript code would return.  A thrown JavaScript
exception is modelled as `Except.error`; a method whose Lean result type is not
`Except` cannot raise, mirroring the TypeScript methods that catch everything.

JavaScript numbers are modelled as `Int` (all numbers appearing in the claims
are integer-valued and well below 2^53, where double arithmetic is exact).
The `Math.log`-based unit selection of `formatFileSize` is modelled by the
exact base-1024 logarithm floor *plus* the one window where the double
computation `Math.floor(Math.log b / Math.log 1024)` deviates from the exact
floor below `1024 ^ 5`: for `b ∈ \x7b1024^5 - 3, 1024^5 - 2, 1024^5 - 1\x7d`
the correctly rounded `Math.log b` is the same double as `Math.log (1024^5)`
(the exact values lie 0.24 / 0.37 / 0.49 ulp away; `1024^5 - 4` lies 0.62 ulp
away), so the computed ratio is exactly `5.0` and the index is 5.  Away from
that window and below `1024 ^ 5`, exact ratios are at least `1e-13` from the
next integer while the computed ratio errs by at most a few `1e-15`, so the
floors agree; at `1024 ^ k` (`k ≤ 5`) the computed ratio is exactly `k`.
Inputs above `1024 ^ 5` (beyond a petabyte) are modelled by the exact floor
only; no theorem below quantifies over that region (the single point
`1024 ^ 5`, where the double ratio is exactly `5.0`, is exercised).
-/

set_option autoImplicit false
set_option linter.unusedVariables false

namespace Web3Storage

/-- A thrown JavaScript value: either an `Error` instance carrying a message,
or a non-`Error` value, of which only its `String(...)` rendering is ever
observable (via `new Error(String(error))` in `withRetry`). -/
inductive JSError where
  | error (message : String)
  | nonError (asString : String)
deriving DecidableEq, Repr

/-- `error instanceof Error ? error.message : fallback` — the fallback differs
between methods ("Unknown error occurred" vs "Unknown error"). -/
def errMsgOr (e : JSError) (fallback : String) : String :=
  match e with
  | .error m => m
  | .nonError _ => fallback

/-- `error instanceof Error ? error : new Error(String(error))` (from `withRetry`). -/
def normalizeError (e : JSError) : JSError :=
  match e with
  | .error m => .error m
  | .nonError s => .error s

/-- JSON values, with numbers restricted to integers (every number in the
repository's data and tests is integer-valued, exactly representable as a
double). -/
inductive JSON where
  | null
  | bool (b : Bool)
  | num (n : Int)
  | str (s : String)
  | arr (xs : List JSON)
  | obj (fields : List (String × JSON))

/-- Lowercase hex digit, for `\u00XX` escapes. -/
def hexDigit (n : Nat) : Char :=
  if n < 10 then Char.ofNat (48 + n) else Char.ofNat (97 + (n - 10))

/-- `JSON.stringify` escaping of a single character inside a string literal. -/
def jsonEscapeChar (c : Char) : String :=
  if c = '"' then "\\\""
  else if c = '\\' then "\\\\"
  else if c = '\n' then "\\n"
  else if c = '\r' then "\\r"
  else if c = '\t' then "\\t"
  else if c = Char.ofNat 8 then "\\b"
  else if c = Char.ofNat 12 then "\\f"
  else if c.toNat < 32 then
    "\\u00" ++ String.singleton (hexDigit (c.toNat / 16)) ++
      String.singleton (hexDigit (c.toNat % 16))
  else String.singleton c

/-- `JSON.stringify` escaping of a string body. -/
def jsonEscape (s : String) : String :=
  s.data.foldl (fun acc c => acc ++ jsonEscapeChar c) ""

mutual

/-- `JSON.stringify` on a JSON value (no replacer / indentation, as in the
source). -/
def jsonStringify : JSON → String
  | .null => "null"
  | .bool b => if b then "true" else "false"
  | .num n => toString n
  | .str s => "\"" ++ jsonEscape s ++ "\""
  | .arr xs => "[" ++ String.intercalate "," (jsonStringifyList xs) ++ "]"
  | .obj fs => "\x7b" ++ String.intercalate "," (jsonStringifyFields fs) ++ "\x7d"

def jsonStringifyList : List JSON → List String
  | [] => []
  | x :: xs => jsonStringify x :: jsonStringifyList xs

def jsonStringifyFields : List (String × JSON) → List String
  | [] => []
  | (k, v) :: fs =>
      ("\"" ++ jsonEscape k ++ "\":" ++ jsonStringify v) :: jsonStringifyFields fs

end

/-- The `UploadResponse` interface: `STATUS_CODE?: number; RESPONSE: string`. -/
structure UploadResponse where
  STATUS_CODE : Option Int
  RESPONSE : String
deriving DecidableEq, Repr

/-- `utils.isValidCID`: `/^[a-zA-Z0-9]\x7b46,59\x7d$/.test(cid)` — an anchored
match of 46 to 59 ASCII alphanumeric characters. -/
def isValidCID (cid : String) : Bool :=
  46 ≤ cid.length && cid.length ≤ 59 && cid.data.all (fun c => c.isAlphanum)

/-- `getUpload(cid)`: the gateway URL template literal, no validation. -/
def getUpload (cid : String) : String :=
  "https://" ++ cid ++ ".ipfs.w3s.link"

/-- `getFileUrl(cid)`: throws `Error("Invalid CID format")` when the CID
heuristic rejects, otherwise the same gateway URL literal. -/
def getFileUrl (cid : String) : Except JSError String :=
  if !isValidCID cid then .error (.error "Invalid CID format")
  else .ok ("https://" ++ cid ++ ".ipfs.w3s.link")

/-- Node's POSIX `path.basename`: drop trailing separators, then keep the part
after the last separator. -/
def basename (p : String) : String :=
  let cs := p.data
  let trimmed := (cs.reverse.dropWhile (fun c => c = '/')).reverse
  if trimmed.isEmpty then (if cs.isEmpty then "" else "/")
  else String.mk ((trimmed.reverse.takeWhile (fun c => c ≠ '/')).reverse)

/-!
## `utils.withRetry`

`fn : Nat → Except JSError α` gives the outcome of the `i`-th invocation of
the wrapped thunk (`Except.error` = the promise rejected).  The result carries,
besides the JS return/throw value, the observable trace: how many times `fn`
was invoked and the total backoff wait (`setTimeout` milliseconds).  A thrown
`lastError` of `none` models the initial `null` (reached only when the loop
body never runs); stored errors are normalized via
`error instanceof Error ? error : new Error(String(error))`.
-/

/-- The retry loop from attempt index `i`, with `remaining` attempts still
allowed (so `i < maxRetries` iff `remaining > 0`; the backoff guard
`i < maxRetries - 1` iff a further attempt remains after this one).
Returns (thrown-or-returned value, number of invocations, total wait). -/
def withRetryGo {α : Type} (fn : Nat → Except JSError α) (d : Nat) :
    Nat → Nat → Except (Option JSError) α × Nat × Nat
  | _, 0 => (.error none, 0, 0)
  | i, remaining + 1 =>
    match fn i with
    | .ok v => (.ok v, 1, 0)
    | .error e =>
      let w := if remaining > 0 then d * 2 ^ i else 0
      let r := withRetryGo fn d (i + 1) remaining
      match r.1 with
      | .ok v' => (.ok v', r.2.1 + 1, w + r.2.2)
      | .error last =>
        (.error (match last with
          | some l => some l
          | none => some (normalizeError e)), r.2.1 + 1, w + r.2.2)

/-- `utils.withRetry(fn, maxRetries, delay)`.  `maxRetries : Int` because the
loop guard `i < maxRetries` runs zero times for any non-positive value. -/
def withRetry {α : Type} (fn : Nat → Except JSError α) (maxRetries : Int)
    (delay : Nat) : Except (Option JSError) α × Nat × Nat :=
  withRetryGo fn delay 0 maxRetries.toNat

/-!
## `upload`

The observable return value depends on (a) the outcome of
`fs.readFileSync` + `fileType.fromBuffer` (both inside the `try`; the content
and sniffed mime type only shape the request, not the result), and (b) the
outcome of the `axios.post` promise: resolution with a status and JSON body,
or rejection with a thrown value.  Every failure is caught and returned as a
result value, so the Lean result type is a plain `UploadResponse`.
-/

/-- `upload(filePath, token)` given the read and POST outcomes. -/
def upload (filePath token : String) (readOutcome : Except JSError Unit)
    (postOutcome : Except JSError (Int × JSON)) : UploadResponse :=
  match readOutcome with
  | .error e => ⟨none, errMsgOr e "Unknown error occurred"⟩
  | .ok _ =>
    match postOutcome with
    | .error e => ⟨none, errMsgOr e "Unknown error occurred"⟩
    | .ok (status, data) =>
      if status == 200 then ⟨some 200, jsonStringify data⟩
      else ⟨none, jsonStringify data⟩

/-- `uploadWithRetry(filePath, token, maxRetries)`: wraps `upload` in
`utils.withRetry` with the default delay 1000.  The per-attempt oracles are
indexed by attempt number; since `upload` catches everything, each attempt's
promise resolves (`Except.ok`). -/
def uploadWithRetry (filePath token : String)
    (readOutcome : Nat → Except JSError Unit)
    (postOutcome : Nat → Except JSError (Int × JSON))
    (maxRetries : Int) : Except (Option JSError) UploadResponse × Nat × Nat :=
  withRetry (fun i => Except.ok (upload filePath token (readOutcome i) (postOutcome i)))
    maxRetries 1000

/-!
## `uploadMultiple`

Reads every file in order (first throwing read aborts into the `catch`),
issues one POST.  The `throw` in the non-200 branch sits inside the method's
own `try`, so it is caught by the `catch` below and turned into the per-path
error array: the method never raises.
-/

/-- `\x7b...data\x7d` spread: the own enumerable properties contributed by a
value in an object literal spread (objects: their fields; arrays / strings:
index-keyed entries; primitives: nothing). -/
def spreadFields (data : JSON) : List (String × JSON) :=
  match data with
  | .obj fs => fs
  | .arr xs => xs.enum.map (fun p => (toString p.1, p.2))
  | .str s => s.data.enum.map (fun p => (toString p.1, JSON.str (String.singleton p.2)))
  | _ => []

/-- Property assignment during an object-literal spread: an existing key keeps
its position but takes the new value, a fresh key is appended. -/
def jsAssign (fields : List (String × JSON)) (kv : String × JSON) :
    List (String × JSON) :=
  if fields.any (fun p => p.1 == kv.1) then
    fields.map (fun p => if p.1 == kv.1 then (p.1, kv.2) else p)
  else fields ++ [kv]

/-- The object literal `\x7bfileName: name, ...data\x7d`. -/
def mergeFileName (name : String) (data : JSON) : List (String × JSON) :=
  (spreadFields data).foldl jsAssign [("fileName", JSON.str name)]

/-- `uploadMultiple(filePaths, token)` given the per-path read outcomes and
the POST outcome.  Always returns an array (never throws). -/
def uploadMultiple (filePaths : List String) (token : String)
    (readFile : String → Except JSError Unit)
    (postOutcome : Except JSError (Int × JSON)) : List UploadResponse :=
  match filePaths.foldlM (fun (_ : Unit) p => readFile p) () with
  | .error e => filePaths.map (fun _ => ⟨none, errMsgOr e "Unknown error occurred"⟩)
  | .ok _ =>
    match postOutcome with
    | .error e => filePaths.map (fun _ => ⟨none, errMsgOr e "Unknown error occurred"⟩)
    | .ok (status, data) =>
      if status == 200 then
        filePaths.map (fun p =>
          ⟨some 200, jsonStringify (.obj (mergeFileName (basename p) data))⟩)
      else
        filePaths.map (fun _ => ⟨none, "Upload failed with status: " ++ toString status⟩)

/-!
## `fileExists` / `isValidToken`

Each issues one HEAD request; the oracle is the outcome of the `axios.head`
promise (resolved status, or thrown value).  Both catch everything and return
a `Bool`, so they cannot raise.
-/

/-- `fileExists(cid)`. -/
def fileExists (cid : String) (outcome : Except JSError Int) : Bool :=
  match outcome with
  | .ok status => status == 200
  | .error _ => false

/-- `isValidToken(token)`. -/
def isValidToken (token : String) (outcome : Except JSError Int) : Bool :=
  match outcome with
  | .ok status => status == 200
  | .error _ => false

/-!
## Number formatting

`(num / den).toFixed(2)` on the exact (rational) quotient: round
`num / den * 100` to the nearest integer, ties toward +infinity (the
ECMAScript rule "pick the larger n"), and print with two forced decimals.
All values reached by the theorems below are exactly representable doubles,
where this coincides with the JS computation.  The rounding is computed in
integer arithmetic; `roundHundredths_eq_floor` below proves it equal to
`⌊num / den * 100 + 1 / 2⌋` over `ℚ`.
-/

/-- `round(num / den * 100)` with ties toward +infinity, as an integer
floor division (`Int./` is floor division for a positive divisor). -/
def roundHundredths (num : Int) (den : Nat) : Int :=
  (200 * num + den) / (2 * (den : Int))

/-- Print `n` hundredths with exactly two decimals (`205 ↦ "2.05"`). -/
def twoDecString (n : Int) : String :=
  let m := n.natAbs
  let f := m % 100
  (if n < 0 ∧ m ≠ 0 then "-" else "") ++ toString (m / 100) ++ "." ++
    (if f < 10 then "0" else "") ++ toString f

/-- `(num / den).toFixed(2)` as a string. -/
def toFixed2 (num : Int) (den : Nat) : String :=
  twoDecString (roundHundredths num den)

/-- `n` hundredths printed the way `` `$\x7bparseFloat(x.toFixed(2))\x7d` ``
renders: trailing fractional zeros (and a bare decimal point) are dropped. -/
def trimmedDecString (n : Int) : String :=
  let m := n.natAbs
  let sign := if n < 0 ∧ m ≠ 0 then "-" else ""
  if m % 100 == 0 then sign ++ toString (m / 100)
  else if m % 10 == 0 then sign ++ toString (m / 100) ++ "." ++ toString (m % 100 / 10)
  else sign ++ toString (m / 100) ++ "." ++ (if m % 100 < 10 then "0" else "") ++ toString (m % 100)

/-- The unit table `sizes = ["Bytes", "KB", "MB", "GB", "TB"]`. -/
def sizesTable : List String := ["Bytes", "KB", "MB", "GB", "TB"]

/-- Fuel-driven base-1024 logarithm floor (`log1024_eq_log` below proves it
equal to `Nat.log 1024`). -/
def log1024Go : Nat → Nat → Nat
  | _, 0 => 0
  | n, fuel + 1 => if n < 1024 then 0 else log1024Go (n / 1024) fuel + 1

/-- Base-1024 logarithm floor of a positive natural. -/
def log1024 (n : Nat) : Nat := log1024Go n n

/-- The unit index `Math.floor(Math.log n / Math.log 1024)` as the doubles
compute it: the exact logarithm floor, except in the window
`1024^5 - 3 ≤ n ≤ 1024^5 - 1` where `Math.log n` rounds to the same double
as `Math.log (1024^5)` and the computed ratio is exactly `5.0` (see the file
header for the ulp analysis; `1125899906842621 = 1024^5 - 3`). -/
def jsUnitIndex (n : Nat) : Nat :=
  if 1125899906842621 ≤ n ∧ n ≤ 1125899906842623 then 5
  else log1024 n

/-- `utils.formatFileSize(bytes)`.  The unit index is the double-precision
`Math.floor(Math.log(bytes) / Math.log(1024))`, modelled by `jsUnitIndex`.
An index beyond the table renders as the string `"undefined"` (JS `sizes[i]`
out of range).  A negative byte count drives the whole pipeline through
`NaN` (`Math.log` of a negative), printing `"NaN undefined"`. -/
def formatFileSize (bytes : Int) : String :=
  if bytes == 0 then "0 Bytes"
  else if bytes < 0 then "NaN undefined"
  else
    let i := jsUnitIndex bytes.toNat
    trimmedDecString (roundHundredths bytes (1024 ^ i)) ++ " " ++
      sizesTable.getD i "undefined"

/-!
## `getFileSize`

`getFileUrl` is called inside the `try`, so an invalid CID throws before any
HEAD request is issued and is re-wrapped by the `catch`.  The result's second
component counts HEAD requests actually performed.
-/

/-- `parseInt(s, 10)`: skip leading whitespace, optional sign, then a leading
decimal-digit run; no digits means `NaN` (`none`). -/
def jsParseInt (s : String) : Option Int :=
  let t := s.data.dropWhile (fun c => c = ' ' ∨ c = '\t' ∨ c = '\n' ∨ c = '\r')
  let (neg, ds) :=
    match t with
    | '-' :: rest => (true, rest)
    | '+' :: rest => (false, rest)
    | _ => (false, t)
  let digits := ds.takeWhile Char.isDigit
  if digits.isEmpty then none
  else
    let v : Int := digits.foldl (fun n c => n * 10 + (c.toNat - 48)) 0
    some (if neg then -v else v)

/-- `parseInt(contentLength, 10) || 0`: an absent header (`parseInt` of
`undefined`) and an unparseable one are both `NaN`, collapsed to `0`; a parsed
`0` stays `0` through `||`. -/
def parseIntOr0 (contentLength : Option String) : Int :=
  match contentLength with
  | none => 0
  | some s => (jsParseInt s).getD 0

/-- `getFileSize(cid)` given the HEAD outcome (status and `content-length`
header).  Second component: number of HEAD requests performed. -/
def getFileSize (cid : String)
    (headOutcome : Except JSError (Int × Option String)) :
    Except JSError String × Nat :=
  match getFileUrl cid with
  | .error e => (.error (.error ("Failed to get file size: " ++ errMsgOr e "Unknown error")), 0)
  | .ok _url =>
    match headOutcome with
    | .error e => (.error (.error ("Failed to get file size: " ++ errMsgOr e "Unknown error")), 1)
    | .ok (_status, contentLength) =>
      (.ok (formatFileSize (parseIntOr0 contentLength)), 1)

/-!
## `getTotalStorageUsed`

The oracle is the outcome of `JSON.parse(await this.userUploads(token))`: a
parsed JSON value, or a thrown value (parse failure — including the case where
`userUploads` swallowed its own failure into a non-JSON error-message string).
The reduce step `acc + (item.size || 0)` follows JavaScript semantics:
`item.size` on `null` throws a `TypeError`; `||` replaces any falsy size by
`0`; `+` is numeric addition until a string operand appears, after which it
concatenates.
-/

/-- JS truthiness of a JSON value (no `NaN`/`undefined` in parsed JSON). -/
def jsTruthy (v : JSON) : Bool :=
  match v with
  | .null => false
  | .bool b => b
  | .num n => n != 0
  | .str s => s != ""
  | .arr _ => true
  | .obj _ => true

mutual

/-- `Array.prototype.toString` = `join(",")`, with `null` elements rendered
empty  (the `ToPrimitive` string used when an array meets `+`). -/
def jsArrayJoin : List JSON → String
  | [] => ""
  | [x] => jsJoinElem x
  | x :: xs => jsJoinElem x ++ "," ++ jsArrayJoin xs

def jsJoinElem : JSON → String
  | .null => ""
  | .bool b => if b then "true" else "false"
  | .num n => toString n
  | .str s => s
  | .arr ys => jsArrayJoin ys
  | .obj _ => "[object Object]"

end

/-- The `reduce` accumulator: a JS number (integer-valued) or, once string
concatenation has struck, a string. -/
inductive JSAcc where
  | num (n : Int)
  | str (s : String)
deriving DecidableEq, Repr

/-- `String(acc)` for the accumulator. -/
def accToString (acc : JSAcc) : String :=
  match acc with
  | .num a => toString a
  | .str s => s

/-- JavaScript `acc + v` for the accumulator and a JSON value. -/
def jsAdd (acc : JSAcc) (v : JSON) : JSAcc :=
  match v with
  | .num n => match acc with
    | .num a => .num (a + n)
    | .str s => .str (s ++ toString n)
  | .bool b => match acc with
    | .num a => .num (a + if b then 1 else 0)
    | .str s => .str (s ++ if b then "true" else "false")
  | .null => match acc with
    | .num a => .num a
    | .str s => .str (s ++ "null")
  | .str t => .str (accToString acc ++ t)
  | .arr xs => .str (accToString acc ++ jsArrayJoin xs)
  | .obj _ => .str (accToString acc ++ "[object Object]")

/-- `(item.size || 0)`: property access on `null` throws a `TypeError`;
otherwise a missing or falsy `size` yields `0`, a truthy one yields itself.
(On a parsed-JSON object, `find?` on the single stored occurrence of the key
matches JS property lookup.) -/
def sizeOrZero (item : JSON) : Except JSError JSON :=
  match item with
  | .null => .error (.error "Cannot read properties of null (reading 'size')")
  | .obj fs =>
    match (fs.find? (fun kv => kv.1 == "size")).map Prod.snd with
    | some v => .ok (if jsTruthy v then v else .num 0)
    | none => .ok (.num 0)
  | _ => .ok (.num 0)

/-- `data.reduce((acc, item) => acc + (item.size || 0), 0)`. -/
def sumSizes (items : List JSON) : Except JSError JSAcc :=
  items.foldlM (fun acc item => (sizeOrZero item).map (jsAdd acc)) (JSAcc.num 0)

/-- JS `ToNumber` on a string, restricted to the shapes reachable here:
whitespace-only is `0`, an optional sign followed by decimal digits is that
integer; every other string is mapped to `NaN` (`none`).  (Fractional /
exponent / hex literals, which JS would also accept, do not arise in any
theorem below.) -/
def jsToNumber (s : String) : Option Int :=
  let t := (s.data.dropWhile (fun c => c = ' ' ∨ c = '\t' ∨ c = '\n' ∨ c = '\r')).reverse
  let t := (t.dropWhile (fun c => c = ' ' ∨ c = '\t' ∨ c = '\n' ∨ c = '\r')).reverse
  if t.isEmpty then some 0
  else
    let (neg, ds) :=
      match t with
      | '-' :: rest => (true, rest)
      | '+' :: rest => (false, rest)
      | _ => (false, t)
    if ds.isEmpty ∨ ¬ ds.all Char.isDigit then none
    else
      let v : Int := ds.foldl (fun n c => n * 10 + (c.toNat - 48)) 0
      some (if neg then -v else v)

/-- `(totalBytes / (1024 * 1024 * 1024)).toFixed(2) + " GB"`; a string
accumulator is first coerced by the division (`NaN` prints as `"NaN"`). -/
def gbString (total : JSAcc) : String :=
  (match total with
   | .num n => toFixed2 n 1073741824
   | .str s =>
     match jsToNumber s with
     | some m => toFixed2 m 1073741824
     | none => "NaN") ++ " GB"

/-- `getTotalStorageUsed(token)` given the `JSON.parse` outcome. -/
def getTotalStorageUsed (parseOutcome : Except JSError JSON) :
    Except JSError String :=
  match parseOutcome with
  | .error e => .error (.error ("Failed to get storage usage: " ++ errMsgOr e "Unknown error"))
  | .ok (.arr items) =>
    match sumSizes items with
    | .error e => .error (.error ("Failed to get storage usage: " ++ errMsgOr e "Unknown error"))
    | .ok total => .ok (gbString total)
  | .ok _ => .ok "0 GB"

/-- Statement-side characterization used by the amended C5 theorem: the
elements on which the reduce step stays numeric, and their contribution.
`none` marks an element the code does not treat as "size 0": a `null` element
(property access throws) or a truthy non-numeric size (JS coercion). -/
def eltSizeValue (e : JSON) : Option Int :=
  match e with
  | .null => none
  | .obj fs =>
    match (fs.find? (fun kv => kv.1 == "size")).map Prod.snd with
    | some (.num n) => some n
    | some v => if jsTruthy v then none else some 0
    | none => some 0
  | _ => some 0

/-!
## Bridge lemmas

The executable integer computations coincide with the spec-level formulas:
the fuel-driven `log1024` with `Nat.log 1024`, and the floor-division
rounding with `⌊q * 100 + 1/2⌋` over `ℚ`.
-/

theorem log1024Go_eq (fuel n : Nat) (h : n ≤ fuel) :
    log1024Go n fuel = Nat.log 1024 n := by
  induction fuel generalizing n with
  | zero =>
    have hn : n = 0 := by omega
    subst hn
    simp [log1024Go, Nat.log_zero_right]
  | succ f ih =>
    by_cases hlt : n < 1024
    · simp [log1024Go, hlt, Nat.log_of_lt hlt]
    · have hge : 1024 ≤ n := by omega
      have hdiv : n / 1024 ≤ f := by
        have hself : n / 1024 < n := Nat.div_lt_self (by omega) (by norm_num)
        omega
      simp only [log1024Go, if_neg hlt]
      rw [ih _ hdiv, Nat.log_of_one_lt_of_le (by norm_num) hge]

theorem log1024_eq_log (n : Nat) : log1024 n = Nat.log 1024 n :=
  log1024Go_eq n n le_rfl

theorem roundHundredths_eq_floor (num : Int) (den : Nat) (h : 0 < den) :
    roundHundredths num den = ⌊((num : ℚ) / (den : ℚ) * 100 + 1 / 2 : ℚ)⌋ := by
  have hden : ((den : ℚ)) ≠ 0 := by positivity
  have hq : ((num : ℚ) / (den : ℚ) * 100 + 1 / 2 : ℚ) =
      ((200 * num + (den : Int) : ℤ) : ℚ) / ((2 * den : ℕ) : ℚ) := by
    push_cast
    field_simp
    ring
  rw [hq, Rat.floor_intCast_div_natCast]
  unfold roundHundredths
  push_cast
  rfl

/-!
## C6 — `formatFileSize`
-/

/-- **C6 counterexample.**  The claim says the unit index is "clamped
implicitly by the table length".  The code does not clamp: at
`bytes = 1024 ^ 5` the index is 5, `sizes[5]` is JS `undefined`, and the
output's unit is the string `"undefined"`, which is not a unit of the table
at all. -/
theorem formatFileSize_no_clamp_counterexample :
    formatFileSize 1125899906842624 = "1 undefined" ∧ "undefined" ∉ sizesTable := by
  exact ⟨by rfl, by decide⟩

/-- **C6 (amended).**  For `0 < bytes < 1024 ^ 5 - 3` the double-computed
unit index equals the exact `floor(log bytes / log 1024)`, stays within the
table, and the value prints rounded to two decimals with trailing zeros
trimmed; zero is special-cased to `"0 Bytes"`; the four concrete example
values hold.  The index is *not* clamped by the table length: at
`bytes ∈ \x7b1024^5 - 3, 1024^5 - 2, 1024^5 - 1\x7d` the double logarithm
already lands on index 5 (`Math.log` of these rounds to the same double as
`Math.log (1024^5)`), and at `1024 ^ 5` the exact index is 5, so all four
print `"1 undefined"` — `sizes[5]` being JS `undefined` — rather than a
clamped `"TB"`. -/
theorem formatFileSize_spec :
    (∀ b : ℤ, 0 < b → b < 1024 ^ 5 - 3 →
      Nat.log 1024 b.toNat < sizesTable.length ∧
      formatFileSize b =
        trimmedDecString ⌊((b : ℚ) / (1024 : ℚ) ^ Nat.log 1024 b.toNat * 100 + 1 / 2 : ℚ)⌋
          ++ " " ++ sizesTable.getD (Nat.log 1024 b.toNat) "undefined")
    ∧ formatFileSize 0 = "0 Bytes"
    ∧ formatFileSize 1024 = "1 KB"
    ∧ formatFileSize 1536 = "1.5 KB"
    ∧ formatFileSize 1073741824 = "1 GB"
    ∧ formatFileSize 1125899906842621 = "1 undefined"
    ∧ formatFileSize 1125899906842622 = "1 undefined"
    ∧ formatFileSize 1125899906842623 = "1 undefined"
    ∧ formatFileSize 1125899906842624 = "1 undefined" := by
  refine ⟨?_, by rfl, by rfl, by rfl, by rfl, by rfl, by rfl, by rfl, by rfl⟩
  intro b hb hlt
  have hb0 : (b == 0) = false := by
    simp only [beq_eq_false_iff_ne, ne_eq]
    omega
  have hbneg : ¬ b < 0 := by omega
  have htn : (b.toNat : ℤ) = b := Int.toNat_of_nonneg (by omega)
  have hlit : ((1024 : ℤ) ^ 5) = 1125899906842624 := by norm_num
  have htlt : b.toNat < 1024 ^ 5 := by
    have hcast : ((1024 ^ 5 : ℕ) : ℤ) = (1024 : ℤ) ^ 5 := by norm_cast
    omega
  have hwin : jsUnitIndex b.toNat = log1024 b.toNat := by
    rw [jsUnitIndex, if_neg]
    rintro ⟨h1, _⟩
    omega
  have hlog : Nat.log 1024 b.toNat < 5 :=
    Nat.log_lt_of_lt_pow (by omega) htlt
  constructor
  · simpa [sizesTable] using hlog
  · have hpow : 0 < 1024 ^ log1024 b.toNat := Nat.pos_pow_of_pos _ (by norm_num)
    rw [formatFileSize]
    rw [if_neg (by simp [hb0]), if_neg hbneg]
    show trimmedDecString (roundHundredths b (1024 ^ jsUnitIndex b.toNat)) ++ " " ++
        sizesTable.getD (jsUnitIndex b.toNat) "undefined" = _
    rw [hwin, roundHundredths_eq_floor _ _ hpow, log1024_eq_log]
    congr 3
    push_cast
    rfl

/-- Witness for the amended C6 theorem at `bytes = 5000`. -/
theorem formatFileSize_spec_witness :
    Nat.log 1024 (Int.toNat 5000) < sizesTable.length ∧
    formatFileSize 5000 =
      trimmedDecString
          ⌊(((5000 : ℤ) : ℚ) / (1024 : ℚ) ^ Nat.log 1024 (Int.toNat 5000) * 100 + 1 / 2 : ℚ)⌋
        ++ " " ++ sizesTable.getD (Nat.log 1024 (Int.toNat 5000)) "undefined" :=
  formatFileSize_spec.1 5000 (by norm_num) (by norm_num)

/-!
## C7 — `getUpload` / `getFileUrl` / `isValidCID`
-/

/-- **C7.**  For a CID accepted by the `^[a-zA-Z0-9]\x7b46,59\x7d$` heuristic,
`getUpload` and `getFileUrl` both return exactly
`https://` ++ cid ++ `.ipfs.w3s.link`; for a rejected CID `getFileUrl` throws
`Error("Invalid CID format")` while `getUpload` still returns the URL; and
`isValidCID` accepts exactly the 46-to-59-character alphanumeric strings. -/
theorem getUpload_getFileUrl_spec (cid : String) :
    getUpload cid = "https://" ++ cid ++ ".ipfs.w3s.link"
    ∧ (isValidCID cid = true →
        getFileUrl cid = .ok ("https://" ++ cid ++ ".ipfs.w3s.link"))
    ∧ (isValidCID cid = false →
        getFileUrl cid = .error (.error "Invalid CID format"))
    ∧ (isValidCID cid = true ↔
        46 ≤ cid.length ∧ cid.length ≤ 59 ∧ ∀ c ∈ cid.data, c.isAlphanum) := by
  refine ⟨rfl, ?_, ?_, ?_⟩
  · intro h
    simp [getFileUrl, h]
  · intro h
    simp [getFileUrl, h]
  · simp [isValidCID, List.all_eq_true, Bool.and_eq_true, decide_eq_true_eq]
    tauto

/-- Witness for C7: a concrete 46-character alphanumeric CID is accepted and
both URLs agree; `"abc"` is rejected by `getFileUrl`. -/
theorem getUpload_getFileUrl_spec_witness :
    getFileUrl "bafkreigh2akiscaildcqabsyg3dfr6chu3fgpregiymsck7e7aqa4s52zy" =
      .ok ("https://" ++ "bafkreigh2akiscaildcqabsyg3dfr6chu3fgpregiymsck7e7aqa4s52zy" ++ ".ipfs.w3s.link")
    ∧ getFileUrl "abc" = .error (.error "Invalid CID format") :=
  ⟨(getUpload_getFileUrl_spec _).2.1 (by decide),
   (getUpload_getFileUrl_spec _).2.2.1 (by decide)⟩

/-!
## C8 — `fileExists` / `isValidToken`
-/

/-- **C8.**  `fileExists` and `isValidToken` are total boolean functions of
the HEAD outcome (they cannot raise — their Lean result type is `Bool`):
they are `true` exactly when the HEAD promise resolved with status 200, and
`false` on every thrown exception. -/
theorem fileExists_isValidToken_spec (cid token : String)
    (o o2 : Except JSError Int) :
    (fileExists cid o = true ↔ o = .ok 200)
    ∧ (isValidToken token o2 = true ↔ o2 = .ok 200)
    ∧ (∀ e, fileExists cid (.error e) = false)
    ∧ (∀ e, isValidToken token (.error e) = false) := by
  refine ⟨?_, ?_, fun e => rfl, fun e => rfl⟩
  · cases o with
    | ok s => simp [fileExists]
    | error e => simp [fileExists]
  · cases o2 with
    | ok s => simp [isValidToken]
    | error e => simp [isValidToken]

/-!
## C9 — `withRetry` with a non-positive `maxRetries`
-/

/-- **C9.**  For `maxRetries ≤ 0` the attempt loop body runs zero times:
`fn` is never invoked (zero calls in the trace), no wait happens, and the
call throws the initial `null` last-error value — modelled by
`Except.error none`, distinct from every thrown `Error` instance
(`Except.error (some e)`). -/
theorem withRetry_nonpositive {α : Type} (fn : Nat → Except JSError α)
    (d : Nat) (m : Int) (h : m ≤ 0) :
    withRetry fn m d = (.error none, 0, 0) := by
  unfold withRetry
  have hz : m.toNat = 0 := by omega
  rw [hz]
  rfl

/-- Witness for C9 at `maxRetries = -2` (and an `fn` that would succeed). -/
theorem withRetry_nonpositive_witness :
    withRetry (fun _ => (.ok 5 : Except JSError Nat)) (-2) 1000 =
      (.error none, 0, 0) :=
  withRetry_nonpositive _ 1000 (-2) (by decide)

/-!
## `withRetry` unfolding lemmas
-/

theorem withRetryGo_ok {α : Type} (fn : Nat → Except JSError α) (d : Nat)
    (k : Nat) : ∀ i rem (v : α), k < rem →
    (∀ j, j < k → ∃ e, fn (i + j) = .error e) →
    fn (i + k) = .ok v →
    withRetryGo fn d i rem = (.ok v, k + 1, d * (2 ^ (i + k) - 2 ^ i)) := by
  induction k with
  | zero =>
    intro i rem v hk hfail hok
    obtain ⟨r, rfl⟩ : ∃ r, rem = r + 1 := ⟨rem - 1, by omega⟩
    simp only [Nat.add_zero] at hok
    simp [withRetryGo, hok]
  | succ k ih =>
    intro i rem v hk hfail hok
    obtain ⟨r, rfl⟩ : ∃ r, rem = r + 1 := ⟨rem - 1, by omega⟩
    obtain ⟨e0, he0⟩ := hfail 0 (by omega)
    simp only [Nat.add_zero] at he0
    have hrec := ih (i + 1) r v (by omega)
      (fun j hj => by
        obtain ⟨e, he⟩ := hfail (j + 1) (by omega)
        exact ⟨e, by rw [← he]; congr 1; omega⟩)
      (by rw [← hok]; congr 1; omega)
    simp only [withRetryGo, he0, hrec, gt_iff_lt, if_pos (show 0 < r by omega)]
    refine Prod.ext rfl (Prod.ext rfl ?_)
    show d * 2 ^ i + d * (2 ^ (i + 1 + k) - 2 ^ (i + 1)) =
      d * (2 ^ (i + (k + 1)) - 2 ^ i)
    have hexp : i + (k + 1) = i + 1 + k := by omega
    rw [hexp, ← Nat.mul_add]
    have hle : 2 ^ (i + 1) ≤ 2 ^ (i + 1 + k) :=
      Nat.pow_le_pow_right (by norm_num) (by omega)
    have h2 : 2 ^ (i + 1) = 2 ^ i * 2 := pow_succ 2 i
    congr 1
    omega

theorem withRetryGo_allFail {α : Type} (fn : Nat → Except JSError α) (d : Nat) :
    ∀ rem i (e : JSError), 0 < rem →
    (∀ j, j < rem → ∃ er, fn (i + j) = .error er) →
    fn (i + (rem - 1)) = .error e →
    withRetryGo fn d i rem =
      (.error (some (normalizeError e)), rem, d * (2 ^ (i + rem - 1) - 2 ^ i)) := by
  intro rem
  induction rem with
  | zero => omega
  | succ r ih =>
    intro i e hpos hfail hlast
    rcases Nat.eq_zero_or_pos r with hr | hr
    · subst hr
      simp only [Nat.add_sub_cancel, Nat.add_zero] at hlast ⊢
      simp [withRetryGo, hlast]
    · obtain ⟨e0, he0⟩ := hfail 0 (by omega)
      simp only [Nat.add_zero] at he0
      have hrec := ih (i + 1) e hr
        (fun j hj => by
          obtain ⟨er, her⟩ := hfail (j + 1) (by omega)
          exact ⟨er, by rw [← her]; congr 1; omega⟩)
        (by rw [← hlast]; congr 1; omega)
      simp only [withRetryGo, he0, hrec, gt_iff_lt, if_pos hr]
      refine Prod.ext rfl (Prod.ext rfl ?_)
      show d * 2 ^ i + d * (2 ^ (i + 1 + r - 1) - 2 ^ (i + 1)) =
        d * (2 ^ (i + (r + 1) - 1) - 2 ^ i)
      have hexp1 : i + 1 + r - 1 = i + r := by omega
      have hexp2 : i + (r + 1) - 1 = i + r := by omega
      rw [hexp1, hexp2, ← Nat.mul_add]
      have hle : 2 ^ (i + 1) ≤ 2 ^ (i + r) :=
        Nat.pow_le_pow_right (by norm_num) (by omega)
      have h2 : 2 ^ (i + 1) = 2 ^ i * 2 := pow_succ 2 i
      congr 1
      omega

/-!
## C4 — `withRetry`
-/

/-- **C4.**  `withRetry(fn, maxRetries, delay)`:

* if the first non-failing attempt is attempt `k` (`k < maxRetries`), it
  returns that attempt's value after `k + 1` invocations with total backoff
  wait `delay * (2 ^ k - 1) = delay + 2·delay + … + 2^(k-1)·delay` — i.e. it
  waits `delay * 2^attemptIndex` after each failing attempt and returns
  immediately on success;
* if all `maxRetries` attempts fail, it invokes `fn` exactly `maxRetries`
  times, throws the last captured (normalized) failure, and the total wait is
  `delay * (2 ^ (maxRetries - 1) - 1)` — no wait after the final failing
  attempt.

With `maxRetries = 3`: success on the third attempt gives total wait
`delay * 3 = delay + 2·delay`; all attempts failing gives 3 invocations and
the last failure thrown. -/
theorem withRetry_spec {α : Type} (fn : Nat → Except JSError α) (m d : Nat) :
    (∀ k v, k < m → (∀ j, j < k → ∃ e, fn j = .error e) → fn k = .ok v →
      withRetry fn (m : Int) d = (.ok v, k + 1, d * (2 ^ k - 1)))
    ∧ (∀ e, 0 < m → (∀ j, j < m → ∃ er, fn j = .error er) →
        fn (m - 1) = .error e →
      withRetry fn (m : Int) d =
        (.error (some (normalizeError e)), m, d * (2 ^ (m - 1) - 1))) := by
  constructor
  · intro k v hk hfail hok
    unfold withRetry
    rw [Int.toNat_natCast]
    have := withRetryGo_ok fn d k 0 m v hk
      (fun j hj => by simpa using hfail j hj) (by simpa using hok)
    simpa using this
  · intro e hpos hfail hlast
    unfold withRetry
    rw [Int.toNat_natCast]
    have := withRetryGo_allFail fn d m 0 e hpos
      (fun j hj => by simpa using hfail j hj) (by simpa using hlast)
    simpa using this

/-- Witness for C4: with `maxRetries = 3` and `delay = 1000`, an operation
failing twice then succeeding returns the success after 3 invocations with
total wait `1000 * 3`; an always-failing operation throws its last failure
after exactly 3 invocations. -/
theorem withRetry_spec_witness :
    withRetry (fun i => if i < 2 then .error (.error "boom") else .ok 7)
        ((3 : ℕ) : ℤ) 1000 = (.ok 7, 2 + 1, 1000 * (2 ^ 2 - 1))
    ∧ withRetry (fun _ => (.error (.error "x") : Except JSError Nat))
        ((3 : ℕ) : ℤ) 1000 =
      (.error (some (normalizeError (.error "x"))), 3, 1000 * (2 ^ (3 - 1) - 1)) := by
  constructor
  · exact (withRetry_spec _ 3 1000).1 2 7 (by norm_num)
      (fun j hj => ⟨.error "boom", by simp [hj]⟩) (by simp)
  · exact (withRetry_spec _ 3 1000).2 (.error "x") (by norm_num)
      (fun j hj => ⟨.error "x", rfl⟩) rfl

/-!
## C3 — `upload`
-/

/-- **C3.**  `upload` cannot raise (its Lean result type is a plain
`UploadResponse`); a resolved 200 yields `STATUS_CODE 200` with the
JSON-serialized body, any other resolved status yields the serialized body
with no status code, and a thrown `Error` — whether from the file read or the
POST — yields that error's message with no status code. -/
theorem upload_spec :
    (∀ filePath token data,
      upload filePath token (.ok ()) (.ok (200, data)) =
        ⟨some 200, jsonStringify data⟩)
    ∧ (∀ filePath token st data, st ≠ 200 →
      upload filePath token (.ok ()) (.ok (st, data)) =
        ⟨none, jsonStringify data⟩)
    ∧ (∀ filePath token m post,
      upload filePath token (.error (.error m)) post = ⟨none, m⟩)
    ∧ (∀ filePath token m,
      upload filePath token (.ok ()) (.error (.error m)) = ⟨none, m⟩) := by
  refine ⟨fun fp tok data => rfl, ?_, fun fp tok m post => rfl,
    fun fp tok m => rfl⟩
  intro fp tok st data hst
  simp [upload, hst]

/-- Witness for C3: a simulated 500 response with a JSON body is returned as
the serialized body with no status code. -/
theorem upload_spec_witness :
    upload "f.bin" "tok" (.ok ()) (.ok (500, .obj [("error", .str "ise")])) =
      ⟨none, "\x7b\"error\":\"ise\"\x7d"⟩ := by
  rw [upload_spec.2.1 "f.bin" "tok" 500 _ (by decide)]
  rfl

/-!
## C2 — `uploadWithRetry`
-/

/-- **C2.**  For any `maxRetries ≥ 1`, `uploadWithRetry` invokes `upload`
exactly once (call count 1 in the trace), never waits, and returns exactly
the result of that single `upload` call: `upload` never throws, so the retry
wrapper's first attempt always counts as a success. -/
theorem uploadWithRetry_once (filePath token : String)
    (ro : Nat → Except JSError Unit) (po : Nat → Except JSError (Int × JSON))
    (m : Int) (h : 1 ≤ m) :
    uploadWithRetry filePath token ro po m =
      (.ok (upload filePath token (ro 0) (po 0)), 1, 0) := by
  unfold uploadWithRetry withRetry
  obtain ⟨t, ht⟩ : ∃ t, m.toNat = t + 1 := ⟨m.toNat - 1, by omega⟩
  rw [ht]
  rfl

/-- Witness for C2 at `maxRetries = 3` with concrete oracles. -/
theorem uploadWithRetry_once_witness :
    uploadWithRetry "a.txt" "tok" (fun _ => .ok ())
        (fun _ => .ok (200, .obj [("cid", .str "q")])) 3 =
      (.ok (upload "a.txt" "tok" (.ok ()) (.ok (200, .obj [("cid", .str "q")]))),
        1, 0) :=
  uploadWithRetry_once "a.txt" "tok" _ _ 3 (by norm_num)

/-!
## C10 — `getFileSize` on an invalid CID
-/

/-- **C10.**  For a CID rejected by `isValidCID`, `getFileSize` throws
`Error("Failed to get file size: Invalid CID format")` — the `getFileUrl`
failure re-wrapped by the method's `catch` — and performs no HEAD request
(request count 0), whatever the HEAD oracle would have answered. -/
theorem getFileSize_invalidCID (cid : String)
    (outcome : Except JSError (Int × Option String))
    (h : isValidCID cid = false) :
    getFileSize cid outcome =
      (.error (.error "Failed to get file size: Invalid CID format"), 0) := by
  simp [getFileSize, getFileUrl, h, errMsgOr]

/-- Witness for C10 at `cid = "abc"` with a HEAD oracle that would answer
status 200 with a content length. -/
theorem getFileSize_invalidCID_witness :
    getFileSize "abc" (.ok (200, some "5")) =
      (.error (.error "Failed to get file size: Invalid CID format"), 0) :=
  getFileSize_invalidCID "abc" (.ok (200, some "5")) (by decide)

/-!
## C1 — `uploadMultiple`
-/

theorem foldlM_reads_ok (rf : String → Except JSError Unit) :
    ∀ ps : List String, (∀ p ∈ ps, rf p = .ok ()) →
    ps.foldlM (fun (_ : Unit) p => rf p) () = .ok () := by
  intro ps
  induction ps with
  | nil => intro h; rfl
  | cons p ps ih =>
    intro h
    have hp := h p (by simp)
    rw [List.foldlM_cons, hp]
    exact ih (fun q hq => h q (by simp [hq]))

theorem foldlM_reads_err (rf : String → Except JSError Unit) (e : JSError) :
    ∀ (pre : List String) (p : String) (rest : List String),
    (∀ q ∈ pre, rf q = .ok ()) → rf p = .error e →
    (pre ++ p :: rest).foldlM (fun (_ : Unit) q => rf q) () = .error e := by
  intro pre
  induction pre with
  | nil =>
    intro p rest hpre hp
    rw [List.nil_append, List.foldlM_cons, hp]
    rfl
  | cons q pre ih =>
    intro p rest hpre hp
    have hq := hpre q (by simp)
    rw [List.cons_append, List.foldlM_cons, hq]
    exact ih p rest (fun q' hq' => hpre q' (by simp [hq'])) hp

theorem foldl_jsAssign_disjoint :
    ∀ (fs acc : List (String × JSON)),
    (∀ kv ∈ fs, ∀ p ∈ acc, p.1 ≠ kv.1) → (fs.map Prod.fst).Nodup →
    fs.foldl jsAssign acc = acc ++ fs := by
  intro fs
  induction fs with
  | nil => intro acc _ _; simp
  | cons kv fs ih =>
    intro acc hdisj hnodup
    have hnone : acc.any (fun p => p.1 == kv.1) = false := by
      rw [List.any_eq_false]
      intro p hp
      simpa using hdisj kv (by simp) p hp
    have hassign : jsAssign acc kv = acc ++ [kv] := by
      rw [jsAssign, if_neg (by simp [hnone])]
    rw [List.foldl_cons, hassign]
    rw [ih (acc ++ [kv]) ?_ (by simpa using hnodup.of_cons)]
    · simp
    · intro kv' hkv' p hp
      rcases List.mem_append.mp hp with hpa | hpk
      · exact hdisj kv' (by simp [hkv']) p hpa
      · have hp1 : p = kv := by simpa using hpk
        have hk1 : kv.1 ∉ fs.map Prod.fst := by
          have hnodup' : (kv.1 :: fs.map Prod.fst).Nodup := by simpa using hnodup
          exact (List.nodup_cons.mp hnodup').1
        rw [hp1]
        intro hcontra
        exact hk1 (by rw [hcontra]; exact List.mem_map_of_mem Prod.fst hkv')

theorem mergeFileName_obj (name : String) (fs : List (String × JSON))
    (hnodup : (fs.map Prod.fst).Nodup) (hnof : ∀ kv ∈ fs, kv.1 ≠ "fileName") :
    mergeFileName name (.obj fs) = ("fileName", JSON.str name) :: fs := by
  rw [mergeFileName]
  show fs.foldl jsAssign [("fileName", JSON.str name)] = _
  rw [foldl_jsAssign_disjoint fs [("fileName", JSON.str name)] ?_ hnodup]
  · rfl
  · intro kv hkv p hp
    have hp1 : p = ("fileName", JSON.str name) := by simpa using hp
    subst hp1
    exact fun hcontra => hnof kv hkv hcontra.symm

/-- **C1 counterexample.**  The claim says a non-200 POST status makes
`uploadMultiple` throw.  It does not: the `throw` sits inside the method's
own `try`, is caught by its `catch`, and the call returns normally — one
result per path carrying the thrown error's message
`"Upload failed with status: 500"` — rather than propagating anything. -/
theorem uploadMultiple_non200_counterexample :
    uploadMultiple ["a.txt"] "token" (fun _ => .ok ()) (.ok (500, .obj [])) =
      [⟨none, "Upload failed with status: 500"⟩] := by
  rfl

/-- **C1 (amended).**  `uploadMultiple` never throws.  When every file read
succeeds: a 200 POST yields one result per path with `STATUS_CODE 200` and
the response body re-serialized with that path's base file name prepended as
`fileName` (stated for an object body without its own `fileName` key — a
clashing key would be overwritten by the spread); a non-200 POST yields one
result per path, all sharing the message `"Upload failed with status: "` ++
status and no status code (the internal throw is swallowed by the method's
own catch); a thrown POST failure yields one result per path sharing the
error's message.  When a file read throws, the first failing read's message
is shared by every path's result. -/
theorem uploadMultiple_spec :
    (∀ (ps : List String) (token : String) (rf : String → Except JSError Unit)
        (fs : List (String × JSON)),
      (∀ p ∈ ps, rf p = .ok ()) →
      (fs.map Prod.fst).Nodup →
      (∀ kv ∈ fs, kv.1 ≠ "fileName") →
      uploadMultiple ps token rf (.ok (200, .obj fs)) =
        ps.map (fun p => ⟨some 200,
          jsonStringify (.obj (("fileName", JSON.str (basename p)) :: fs))⟩))
    ∧ (∀ ps token rf (st : Int) data, (∀ p ∈ ps, rf p = .ok ()) → st ≠ 200 →
      uploadMultiple ps token rf (.ok (st, data)) =
        ps.map (fun _ => ⟨none, "Upload failed with status: " ++ toString st⟩))
    ∧ (∀ ps token rf e, (∀ p ∈ ps, rf p = .ok ()) →
      uploadMultiple ps token rf (.error e) =
        ps.map (fun _ => ⟨none, errMsgOr e "Unknown error occurred"⟩))
    ∧ (∀ pre p rest token rf post e, (∀ q ∈ pre, rf q = .ok ()) →
      rf p = .error e →
      uploadMultiple (pre ++ p :: rest) token rf post =
        (pre ++ p :: rest).map
          (fun _ => ⟨none, errMsgOr e "Unknown error occurred"⟩)) := by
  refine ⟨?_, ?_, ?_, ?_⟩
  · intro ps token rf fs hreads hnodup hnof
    have hm : ∀ nm, mergeFileName nm (.obj fs) = ("fileName", JSON.str nm) :: fs :=
      fun nm => mergeFileName_obj nm fs hnodup hnof
    simp [uploadMultiple, foldlM_reads_ok rf ps hreads, hm]
  · intro ps token rf st data hreads hst
    simp [uploadMultiple, foldlM_reads_ok rf ps hreads, hst]
  · intro ps token rf e hreads
    simp [uploadMultiple, foldlM_reads_ok rf ps hreads]
  · intro pre p rest token rf post e hpre hp
    simp [uploadMultiple, foldlM_reads_err rf e pre p rest hpre hp]

/-- Witness for the amended C1 theorem: a successful single-file batch embeds
the path's base name in the serialized response. -/
theorem uploadMultiple_spec_witness :
    uploadMultiple ["dir/a.txt"] "t" (fun _ => .ok ())
        (.ok (200, .obj [("cid", .str "x")])) =
      [⟨some 200, "\x7b\"fileName\":\"a.txt\",\"cid\":\"x\"\x7d"⟩] := by
  rw [uploadMultiple_spec.1 ["dir/a.txt"] "t" _ [("cid", .str "x")]
    (fun p _ => rfl) (by simp)
    (by intro kv hkv; simp only [List.mem_singleton] at hkv; subst hkv; decide)]
  rfl

/-!
## C5 — `getTotalStorageUsed`
-/

theorem sumSizes_num_of_isSome :
    ∀ (items : List JSON) (a : Int),
    (∀ e ∈ items, (eltSizeValue e).isSome) →
    items.foldlM (fun acc item => (sizeOrZero item).map (jsAdd acc)) (JSAcc.num a) =
      .ok (.num (a + (items.map (fun e => (eltSizeValue e).getD 0)).sum)) := by
  intro items
  induction items with
  | nil =>
    intro a _
    simp only [List.foldlM_nil, List.map_nil, List.sum_nil, add_zero]
    rfl
  | cons e es ih =>
    intro a h
    have he := h e (by simp)
    have hes : ∀ x ∈ es, (eltSizeValue x).isSome := fun x hx => h x (by simp [hx])
    obtain ⟨n, hso, hval⟩ :
        ∃ n, sizeOrZero e = .ok (.num n) ∧ eltSizeValue e = some n := by
      cases e with
      | null => simp [eltSizeValue] at he
      | obj fs =>
        rcases hf : (fs.find? (fun kv => kv.1 == "size")).map Prod.snd with _ | v
        · exact ⟨0, by simp [sizeOrZero, hf], by simp [eltSizeValue, hf]⟩
        · cases v with
          | num n =>
            by_cases hn : n = 0
            · subst hn
              exact ⟨0, by simp [sizeOrZero, hf, jsTruthy],
                by simp [eltSizeValue, hf]⟩
            · exact ⟨n, by simp [sizeOrZero, hf, jsTruthy, hn],
                by simp [eltSizeValue, hf]⟩
          | null =>
            exact ⟨0, by simp [sizeOrZero, hf, jsTruthy],
              by simp [eltSizeValue, hf, jsTruthy]⟩
          | bool b =>
            cases b with
            | false =>
              exact ⟨0, by simp [sizeOrZero, hf, jsTruthy],
                by simp [eltSizeValue, hf, jsTruthy]⟩
            | true => simp [eltSizeValue, hf, jsTruthy] at he
          | str s =>
            by_cases hs : s = ""
            · subst hs
              exact ⟨0, by simp [sizeOrZero, hf, jsTruthy],
                by simp [eltSizeValue, hf, jsTruthy]⟩
            · simp [eltSizeValue, hf, jsTruthy, hs] at he
          | arr xs => simp [eltSizeValue, hf, jsTruthy] at he
          | obj gs => simp [eltSizeValue, hf, jsTruthy] at he
      | bool b => exact ⟨0, by simp [sizeOrZero], by simp [eltSizeValue]⟩
      | num m => exact ⟨0, by simp [sizeOrZero], by simp [eltSizeValue]⟩
      | str s => exact ⟨0, by simp [sizeOrZero], by simp [eltSizeValue]⟩
      | arr xs => exact ⟨0, by simp [sizeOrZero], by simp [eltSizeValue]⟩
    rw [List.foldlM_cons, hso]
    show (Except.ok (jsAdd (.num a) (.num n)) : Except JSError JSAcc) >>= _ = _
    rw [show jsAdd (.num a) (.num n) = .num (a + n) from rfl]
    show List.foldlM _ (JSAcc.num (a + n)) es = _
    rw [ih (a + n) hes]
    simp [hval]
    ring

/-- **C5 counterexample.**  The claim says that whenever the parsed value is
an array, the method returns the formatted sum (for `[null]`: `"0.00 GB"`,
the element's size being "missing").  Instead, `item.size` on the `null`
element throws a `TypeError`, which the `catch` re-wraps and re-throws: the
call does not return a value at all. -/
theorem getTotalStorageUsed_null_counterexample :
    (getTotalStorageUsed (.ok (.arr [.null]))).isOk = false := by
  rfl

/-- **C5 (amended).**  `getTotalStorageUsed` on a parsed array whose elements
are non-null and carry integer (or missing / falsy) `size` fields returns the
sum of those sizes divided by `1024^3` and printed with exactly two decimals
followed by `" GB"`; a truthy non-numeric size is *not* treated as 0 (JS
`+` coercion applies instead) and a `null` element makes the call throw; a
non-array parsed value yields `"0 GB"`; the concrete two-gigabyte example
holds. -/
theorem getTotalStorageUsed_spec :
    (∀ items : List JSON, (∀ e ∈ items, (eltSizeValue e).isSome) →
      getTotalStorageUsed (.ok (.arr items)) =
        .ok (toFixed2 ((items.map (fun e => (eltSizeValue e).getD 0)).sum)
          1073741824 ++ " GB"))
    ∧ (∀ n : ℤ, toFixed2 n 1073741824 =
        twoDecString ⌊((n : ℚ) / 1073741824 * 100 + 1 / 2 : ℚ)⌋)
    ∧ (∀ j : JSON, (∀ xs, j ≠ .arr xs) →
        getTotalStorageUsed (.ok j) = .ok "0 GB")
    ∧ getTotalStorageUsed (.ok (.arr [.obj [("size", .num 1073741824)],
        .obj [("size", .num 1073741824)]])) = .ok "2.00 GB" := by
  refine ⟨?_, ?_, ?_, by rfl⟩
  · intro items h
    have hsum := sumSizes_num_of_isSome items 0 h
    simp only [zero_add] at hsum
    simp [getTotalStorageUsed, sumSizes, hsum, gbString]
  · intro n
    rw [toFixed2, roundHundredths_eq_floor n 1073741824 (by norm_num)]
    norm_num
  · intro j hj
    cases j with
    | arr xs => exact absurd rfl (hj xs)
    | null => rfl
    | bool b => rfl
    | num n => rfl
    | str s => rfl
    | obj fs => rfl

/-- Witness for the amended C5 theorem: a one-element uploads list and a
non-array payload. -/
theorem getTotalStorageUsed_spec_witness :
    getTotalStorageUsed (.ok (.arr [.obj [("size", .num 5000)]])) =
      .ok (toFixed2 (([JSON.obj [("size", JSON.num 5000)]].map
        (fun e => (eltSizeValue e).getD 0)).sum) 1073741824 ++ " GB")
    ∧ getTotalStorageUsed (.ok (.num 7)) = .ok "0 GB" :=
  ⟨getTotalStorageUsed_spec.1 _
      (by intro e he; simp only [List.mem_singleton] at he; subst he; rfl),
   getTotalStorageUsed_spec.2.2.1 _ (fun xs h => JSON.noConfusion h)⟩

end Web3Storage
